import Mathlib

/-
Verification of the diff-importing script hg_import.py.

The script validates its command line, requires the current directory to be
a workspace root, applies a patch fetched from a URL through the external
tool, then scans the fetched text line by line against six fixed patterns
and replays rename, copy and delete metadata through further external
commands.  The definitions below embed that behaviour: lines are the
strings produced by readlines, so a line may carry one trailing newline;
external commands are argument vectors of strings; the external world is an
oracle from an argument vector to the success of the invocation.
-/

/-- Membership of a byte in the space class of a Python pattern without the
unicode flag: space, tab, newline, carriage return, vertical tab, form feed. -/
def isPySpace (c : Char) : Bool :=
  c == ' ' || c == '\t' || c == '\n' || c == '\r' || c == '\x0b' || c == '\x0c'

/-- Remove a single trailing newline.  The dollar anchor of a Python pattern
matches at the end of the searched string and also just before a newline that
ends it, so a line as returned by readlines is matched up to that newline. -/
def stripNL (l : List Char) : List Char :=
  if l.getLast? = some '\n' then l.dropLast else l

/-- Remove a literal pattern head from the front of a character list,
returning the remainder exactly when the whole head is present. -/
def chopStart : List Char → List Char → Option (List Char)
  | [], l => some l
  | _ :: _, [] => none
  | p :: ps, c :: cs => if c = p then chopStart ps cs else none

/-- Search of one of the six source patterns against one line.  Each source
pattern is anchored at both ends and consists of a literal head followed by a
captured nonempty run of non-space bytes, as compiled on lines 23 to 28 of
hg_import.py, so a search succeeds exactly when the whole line, up to one
trailing newline, is the head followed by such a run, and the run is the
captured group. -/
def pyFullMatch (pat : String) (line : String) : Option String :=
  match chopStart pat.data (stripNL line.data) with
  | some rest =>
    if !rest.isEmpty && rest.all (fun c => !isPySpace c) then some (String.mk rest) else none
  | none => none

/-- The external tool name, bound on line 29 of the source. -/
def hg_cmd : String := "hg"

/-- Literal head of the source pattern file_name_re. -/
def file_name_re : String := "Index: "

/-- Literal head of the source pattern deleted_re. -/
def deleted_re : String := "deleted file mode "

/-- Literal head of the source pattern fp. -/
def fp : String := "rename from "

/-- Literal head of the source pattern tp. -/
def tp : String := "rename to "

/-- Literal head of the source pattern fcp. -/
def fcp : String := "copy from "

/-- Literal head of the source pattern tcp. -/
def tcp : String := "copy to "

/-- The cross-line locals of the scan loop.  file_name is the path announced
by the last Index line; hg_from is the single pending source shared by the
rename-from branch on line 62 and the copy-from branch on line 70 of the
source.  A value of none models the Python local not yet being bound, so
that reading it raises an uncaught NameError.  The local hg_to is always
written immediately before its only read and carries no cross-line state. -/
structure ScanState where
  file_name : Option String
  hg_from : Option String
deriving DecidableEq

/-- Effect of one pass of the loop body over one line: the updated locals,
the diagnostic lines printed, the external commands reached in order, and
whether an unbound local was read, which is fatal and truncates cmds at the
point of the failed read. -/
structure LineResult where
  state : ScanState
  out : List String
  cmds : List (List String)
  nameErr : Bool
deriving DecidableEq

/-- Result of the scan over the fetched lines: diagnostic output, the
external commands actually invoked in order, and whether the scan completed
without a fatal error. -/
structure ScanResult where
  out : List String
  invoked : List (List String)
  ok : Bool
deriving DecidableEq

/-- Result of the whole script: whether the process exits with status zero,
its standard output lines, and the external commands invoked in order. -/
structure RunResult where
  ok : Bool
  output : List String
  invoked : List (List String)
deriving DecidableEq

/-- Lines 71 to 75 of the source: on a copy-to match, read hg_from, invoke
the copy and then the no-backup revert of the copy source. -/
def copyToStage (st : ScanState) (line : String) (out : List String)
    (cmds : List (List String)) : LineResult :=
  match pyFullMatch tcp line with
  | some p =>
    match st.hg_from with
    | none => ⟨st, out, cmds, true⟩
    | some f =>
      ⟨st, out, cmds ++ [[hg_cmd, "cp", f, p], [hg_cmd, "revert", "--no-backup", f]], false⟩
  | none => ⟨st, out, cmds, false⟩

/-- Lines 68 to 70 of the source: on a copy-from match, record the source in
the shared pending local hg_from. -/
def copyStage (st : ScanState) (line : String) (out : List String)
    (cmds : List (List String)) : LineResult :=
  match pyFullMatch fcp line with
  | some p => copyToStage ⟨st.file_name, some p⟩ line out cmds
  | none => copyToStage st line out cmds

/-- Lines 63 to 66 of the source: on a rename-to match, read hg_from and
invoke the forced rename. -/
def renameToStage (st : ScanState) (line : String) (out : List String)
    (cmds : List (List String)) : LineResult :=
  match pyFullMatch tp line with
  | some p =>
    match st.hg_from with
    | none => ⟨st, out, cmds, true⟩
    | some f => copyStage st line out (cmds ++ [[hg_cmd, "mv", "-f", f, p]])
  | none => copyStage st line out cmds

/-- Lines 60 to 62 of the source: on a rename-from match, record the source
in the shared pending local hg_from. -/
def renameStage (st : ScanState) (line : String) (out : List String)
    (cmds : List (List String)) : LineResult :=
  match pyFullMatch fp line with
  | some p => renameToStage ⟨st.file_name, some p⟩ line out cmds
  | none => renameToStage st line out cmds

/-- Lines 55 to 58 of the source: on a deleted-file match, read file_name
and invoke the forced removal. -/
def deletedStage (st : ScanState) (line : String) (out : List String) : LineResult :=
  match pyFullMatch deleted_re line with
  | some _ =>
    match st.file_name with
    | none => ⟨st, out, [], true⟩
    | some f => renameStage st line out [[hg_cmd, "rm", "-f", f]]
  | none => renameStage st line out []

/-- Lines 50 to 75 of the source: one pass of the loop body over one line,
starting with the Index detection that updates file_name and prints the
diagnostic line. -/
def lineEffects (st : ScanState) (line : String) : LineResult :=
  match pyFullMatch file_name_re line with
  | some p => deletedStage ⟨some p, st.hg_from⟩ line ["___ " ++ p]
  | none => deletedStage st line []

/-- Invoke a list of commands in order against the oracle, stopping at the
first failing invocation: returns the commands actually invoked, the failing
one included, and whether all succeeded. -/
def execCmds (exec : List String → Bool) : List (List String) → List (List String) × Bool
  | [] => ([], true)
  | c :: cs =>
    if exec c then
      let r := execCmds exec cs
      (c :: r.1, r.2)
    else ([c], false)

/-- Lines 49 to 75 of the source: the scan over the fetched lines.  Each
line contributes its diagnostics and its commands; a failing invocation or a
NameError aborts the rest of the scan with a non-zero process exit. -/
def scanLines (exec : List String → Bool) (st : ScanState) : List String → ScanResult
  | [] => ⟨[], [], true⟩
  | l :: ls =>
    let r := lineEffects st l
    let e := execCmds exec r.cmds
    if e.2 then
      if r.nameErr then ⟨r.out, e.1, false⟩
      else
        let rest := scanLines exec r.state ls
        ⟨r.out ++ rest.out, e.1 ++ rest.invoked, rest.ok⟩
    else ⟨r.out, e.1, false⟩

/-- Line 32 of the source. -/
def usageMsg : String := "missing codereview.appspot.com URL"

/-- Line 36 of the source. -/
def workspaceMsg : String := "must be run from the root directory of the hg workspace"

/-- Line 47 of the source: the argument vector of the initial patch
application. -/
def mkImportCmd (force : List String) (url : String) : List String :=
  [hg_cmd, "import"] ++ force ++ ["--no-commit", url]

/-- Lines 47 to 76 of the source, given the URL argument looked up at the
computed index: none models an uncaught IndexError on reading the argument
vector.  When the initial invocation fails the scan is never reached. -/
def applyImport (urlOpt : Option String) (force : List String) (body : List String)
    (exec : List String → Bool) : RunResult :=
  match urlOpt with
  | none => ⟨false, [], []⟩
  | some url =>
    if exec (mkImportCmd force url) then
      ⟨(scanLines exec ⟨none, none⟩ body).ok, (scanLines exec ⟨none, none⟩ body).out,
        mkImportCmd force url :: (scanLines exec ⟨none, none⟩ body).invoked⟩
    else ⟨false, [], [mkImportCmd force url]⟩

/-- Lines 31 to 76 of the source: the whole script.  argv is the Python
sys.argv, its leading element the program name; hasHg tells whether the
workspace marker subdirectory exists; body is the fetched text as a list of
lines; exec is the oracle deciding the success of each external command. -/
def runScript (argv : List String) (hasHg : Bool) (body : List String)
    (exec : List String → Bool) : RunResult :=
  if argv.length = 1 then ⟨false, [usageMsg], []⟩
  else if !hasHg then ⟨false, [workspaceMsg], []⟩
  else if argv.get? 1 = some "-f" then applyImport (argv.get? 2) ["-f"] body exec
  else applyImport (argv.get? 1) [] body exec

/-- An oracle under which every external command succeeds. -/
def okExec : List String → Bool := fun _ => true

/-- The six pattern heads of the source, in source order. -/
def marker_res : List String := [file_name_re, deleted_re, fp, tp, fcp, tcp]

/-- A line matched by none of the six source patterns. -/
def noMarker (line : String) : Bool :=
  marker_res.all fun q => (pyFullMatch q line).isNone

lemma isEmpty_false_iff (l : List Char) : l.isEmpty = false ↔ l ≠ [] := by
  cases l <;> simp

lemma chopStart_eq_some_iff : ∀ (p l r : List Char), chopStart p l = some r ↔ l = p ++ r
  | [], l, r => by simp [chopStart]
  | p :: ps, [], r => by simp [chopStart]
  | p :: ps, c :: cs, r => by
    by_cases hc : c = p
    · subst hc
      simp [chopStart, chopStart_eq_some_iff ps cs r]
    · simp [chopStart, hc, Ne.symm hc]

lemma pyFullMatch_eq_some_iff (pat line p : String) :
    pyFullMatch pat line = some p ↔
      (stripNL line.data = pat.data ++ p.data ∧ p.data ≠ [] ∧
        p.data.all (fun c => !isPySpace c) = true) := by
  unfold pyFullMatch
  cases hd : chopStart pat.data (stripNL line.data) with
  | none =>
    constructor
    · intro h
      exact absurd h (by simp)
    · rintro ⟨he, -, -⟩
      rw [he, (chopStart_eq_some_iff pat.data (pat.data ++ p.data) p.data).mpr rfl] at hd
      exact absurd hd (by simp)
  | some rest =>
    have hrest : stripNL line.data = pat.data ++ rest := (chopStart_eq_some_iff _ _ _).mp hd
    show (if !rest.isEmpty && rest.all (fun c => !isPySpace c) then some (String.mk rest)
        else none) = some p ↔ _
    by_cases hg : (!rest.isEmpty && rest.all fun c => !isPySpace c) = true
    · rw [if_pos hg]
      rw [Bool.and_eq_true, Bool.not_eq_true'] at hg
      constructor
      · intro h
        have hp : String.mk rest = p := Option.some.inj h
        have hpd : p.data = rest := by rw [← hp]
        refine ⟨?_, ?_, ?_⟩
        · rw [hrest, hpd]
        · rw [hpd]
          exact (isEmpty_false_iff rest).mp hg.1
        · rw [hpd]
          exact hg.2
      · rintro ⟨he, hne, hall⟩
        have hpd : rest = p.data := List.append_cancel_left (hrest.symm.trans he)
        rw [hpd]
    · rw [if_neg hg]
      constructor
      · intro h
        exact absurd h (by simp)
      · rintro ⟨he, hne, hall⟩
        have hpd : rest = p.data := List.append_cancel_left (hrest.symm.trans he)
        exact absurd (by rw [hpd]; simp [hall, (isEmpty_false_iff p.data).mpr hne]) hg

lemma append_overlap : ∀ (p1 p2 r1 r2 : List Char), p1 ++ r1 = p2 ++ r2 →
    (chopStart p1 p2).isSome ∨ (chopStart p2 p1).isSome
  | [], p2, _, _, _ => Or.inl (by simp [chopStart])
  | _ :: _, [], _, _, _ => Or.inr (by simp [chopStart])
  | a :: ps, b :: qs, r1, r2, h => by
    rw [List.cons_append, List.cons_append, List.cons.injEq] at h
    obtain ⟨hab, ht⟩ := h
    subst hab
    rcases append_overlap ps qs r1 r2 ht with h' | h'
    · left
      simpa [chopStart] using h'
    · right
      simpa [chopStart] using h'

lemma pyFullMatch_some_parts {pat line r : String} (h : pyFullMatch pat line = some r) :
    stripNL line.data = pat.data ++ r.data :=
  ((pyFullMatch_eq_some_iff pat line r).mp h).1

lemma pyFullMatch_none_right (p2 : String) {p1 line r1 : String}
    (h1 : pyFullMatch p1 line = some r1)
    (h12 : chopStart p1.data p2.data = none) (h21 : chopStart p2.data p1.data = none) :
    pyFullMatch p2 line = none := by
  cases h : pyFullMatch p2 line with
  | none => rfl
  | some r2 =>
    have e1 := pyFullMatch_some_parts h1
    have e2 := pyFullMatch_some_parts h
    rcases append_overlap p1.data p2.data r1.data r2.data (e1.symm.trans e2) with h' | h'
    · rw [h12] at h'
      simp at h'
    · rw [h21] at h'
      simp at h'

lemma noMarker_elim {line : String} (h : noMarker line = true) :
    pyFullMatch file_name_re line = none ∧ pyFullMatch deleted_re line = none ∧
    pyFullMatch fp line = none ∧ pyFullMatch tp line = none ∧
    pyFullMatch fcp line = none ∧ pyFullMatch tcp line = none := by
  simp only [noMarker, marker_res, List.all_cons, List.all_nil, Bool.and_eq_true,
    Option.isNone_iff_eq_none, Bool.and_true] at h
  exact ⟨h.1, h.2.1, h.2.2.1, h.2.2.2.1, h.2.2.2.2.1, h.2.2.2.2.2⟩

lemma lineEffects_of_none (st : ScanState) (line : String)
    (h1 : pyFullMatch file_name_re line = none) (h2 : pyFullMatch deleted_re line = none)
    (h3 : pyFullMatch fp line = none) (h4 : pyFullMatch tp line = none)
    (h5 : pyFullMatch fcp line = none) (h6 : pyFullMatch tcp line = none) :
    lineEffects st line = ⟨st, [], [], false⟩ := by
  simp [lineEffects, deletedStage, renameStage, renameToStage, copyStage, copyToStage,
    h1, h2, h3, h4, h5, h6]

lemma lineEffects_of_index (st : ScanState) {line p : String}
    (h : pyFullMatch file_name_re line = some p) :
    lineEffects st line = ⟨⟨some p, st.hg_from⟩, ["___ " ++ p], [], false⟩ := by
  have h2 : pyFullMatch deleted_re line = none :=
    pyFullMatch_none_right deleted_re h (by decide) (by decide)
  have h3 : pyFullMatch fp line = none :=
    pyFullMatch_none_right fp h (by decide) (by decide)
  have h4 : pyFullMatch tp line = none :=
    pyFullMatch_none_right tp h (by decide) (by decide)
  have h5 : pyFullMatch fcp line = none :=
    pyFullMatch_none_right fcp h (by decide) (by decide)
  have h6 : pyFullMatch tcp line = none :=
    pyFullMatch_none_right tcp h (by decide) (by decide)
  simp [lineEffects, deletedStage, renameStage, renameToStage, copyStage, copyToStage,
    h, h2, h3, h4, h5, h6]

lemma lineEffects_of_deleted_some (st : ScanState) {line p f : String}
    (h : pyFullMatch deleted_re line = some p) (hf : st.file_name = some f) :
    lineEffects st line = ⟨st, [], [[hg_cmd, "rm", "-f", f]], false⟩ := by
  have h1 : pyFullMatch file_name_re line = none :=
    pyFullMatch_none_right file_name_re h (by decide) (by decide)
  have h3 : pyFullMatch fp line = none :=
    pyFullMatch_none_right fp h (by decide) (by decide)
  have h4 : pyFullMatch tp line = none :=
    pyFullMatch_none_right tp h (by decide) (by decide)
  have h5 : pyFullMatch fcp line = none :=
    pyFullMatch_none_right fcp h (by decide) (by decide)
  have h6 : pyFullMatch tcp line = none :=
    pyFullMatch_none_right tcp h (by decide) (by decide)
  simp [lineEffects, deletedStage, renameStage, renameToStage, copyStage, copyToStage,
    h, h1, h3, h4, h5, h6, hf]

lemma lineEffects_of_deleted_none (st : ScanState) {line p : String}
    (h : pyFullMatch deleted_re line = some p) (hf : st.file_name = none) :
    lineEffects st line = ⟨st, [], [], true⟩ := by
  have h1 : pyFullMatch file_name_re line = none :=
    pyFullMatch_none_right file_name_re h (by decide) (by decide)
  simp [lineEffects, deletedStage, h, h1, hf]

lemma lineEffects_of_fp (st : ScanState) {line p : String}
    (h : pyFullMatch fp line = some p) :
    lineEffects st line = ⟨⟨st.file_name, some p⟩, [], [], false⟩ := by
  have h1 : pyFullMatch file_name_re line = none :=
    pyFullMatch_none_right file_name_re h (by decide) (by decide)
  have h2 : pyFullMatch deleted_re line = none :=
    pyFullMatch_none_right deleted_re h (by decide) (by decide)
  have h4 : pyFullMatch tp line = none :=
    pyFullMatch_none_right tp h (by decide) (by decide)
  have h5 : pyFullMatch fcp line = none :=
    pyFullMatch_none_right fcp h (by decide) (by decide)
  have h6 : pyFullMatch tcp line = none :=
    pyFullMatch_none_right tcp h (by decide) (by decide)
  simp [lineEffects, deletedStage, renameStage, renameToStage, copyStage, copyToStage,
    h, h1, h2, h4, h5, h6]

lemma lineEffects_of_tp_some (st : ScanState) {line p f : String}
    (h : pyFullMatch tp line = some p) (hf : st.hg_from = some f) :
    lineEffects st line = ⟨st, [], [[hg_cmd, "mv", "-f", f, p]], false⟩ := by
  have h1 : pyFullMatch file_name_re line = none :=
    pyFullMatch_none_right file_name_re h (by decide) (by decide)
  have h2 : pyFullMatch deleted_re line = none :=
    pyFullMatch_none_right deleted_re h (by decide) (by decide)
  have h3 : pyFullMatch fp line = none :=
    pyFullMatch_none_right fp h (by decide) (by decide)
  have h5 : pyFullMatch fcp line = none :=
    pyFullMatch_none_right fcp h (by decide) (by decide)
  have h6 : pyFullMatch tcp line = none :=
    pyFullMatch_none_right tcp h (by decide) (by decide)
  simp [lineEffects, deletedStage, renameStage, renameToStage, copyStage, copyToStage,
    h, h1, h2, h3, h5, h6, hf]

lemma lineEffects_of_tp_none (st : ScanState) {line p : String}
    (h : pyFullMatch tp line = some p) (hf : st.hg_from = none) :
    lineEffects st line = ⟨st, [], [], true⟩ := by
  have h1 : pyFullMatch file_name_re line = none :=
    pyFullMatch_none_right file_name_re h (by decide) (by decide)
  have h2 : pyFullMatch deleted_re line = none :=
    pyFullMatch_none_right deleted_re h (by decide) (by decide)
  have h3 : pyFullMatch fp line = none :=
    pyFullMatch_none_right fp h (by decide) (by decide)
  simp [lineEffects, deletedStage, renameStage, renameToStage, h, h1, h2, h3, hf]

lemma lineEffects_of_fcp (st : ScanState) {line p : String}
    (h : pyFullMatch fcp line = some p) :
    lineEffects st line = ⟨⟨st.file_name, some p⟩, [], [], false⟩ := by
  have h1 : pyFullMatch file_name_re line = none :=
    pyFullMatch_none_right file_name_re h (by decide) (by decide)
  have h2 : pyFullMatch deleted_re line = none :=
    pyFullMatch_none_right deleted_re h (by decide) (by decide)
  have h3 : pyFullMatch fp line = none :=
    pyFullMatch_none_right fp h (by decide) (by decide)
  have h4 : pyFullMatch tp line = none :=
    pyFullMatch_none_right tp h (by decide) (by decide)
  have h6 : pyFullMatch tcp line = none :=
    pyFullMatch_none_right tcp h (by decide) (by decide)
  simp [lineEffects, deletedStage, renameStage, renameToStage, copyStage, copyToStage,
    h, h1, h2, h3, h4, h6]

lemma lineEffects_of_tcp_some (st : ScanState) {line p f : String}
    (h : pyFullMatch tcp line = some p) (hf : st.hg_from = some f) :
    lineEffects st line =
      ⟨st, [], [[hg_cmd, "cp", f, p], [hg_cmd, "revert", "--no-backup", f]], false⟩ := by
  have h1 : pyFullMatch file_name_re line = none :=
    pyFullMatch_none_right file_name_re h (by decide) (by decide)
  have h2 : pyFullMatch deleted_re line = none :=
    pyFullMatch_none_right deleted_re h (by decide) (by decide)
  have h3 : pyFullMatch fp line = none :=
    pyFullMatch_none_right fp h (by decide) (by decide)
  have h4 : pyFullMatch tp line = none :=
    pyFullMatch_none_right tp h (by decide) (by decide)
  have h5 : pyFullMatch fcp line = none :=
    pyFullMatch_none_right fcp h (by decide) (by decide)
  simp [lineEffects, deletedStage, renameStage, renameToStage, copyStage, copyToStage,
    h, h1, h2, h3, h4, h5, hf]

lemma lineEffects_of_tcp_none (st : ScanState) {line p : String}
    (h : pyFullMatch tcp line = some p) (hf : st.hg_from = none) :
    lineEffects st line = ⟨st, [], [], true⟩ := by
  have h1 : pyFullMatch file_name_re line = none :=
    pyFullMatch_none_right file_name_re h (by decide) (by decide)
  have h2 : pyFullMatch deleted_re line = none :=
    pyFullMatch_none_right deleted_re h (by decide) (by decide)
  have h3 : pyFullMatch fp line = none :=
    pyFullMatch_none_right fp h (by decide) (by decide)
  have h4 : pyFullMatch tp line = none :=
    pyFullMatch_none_right tp h (by decide) (by decide)
  have h5 : pyFullMatch fcp line = none :=
    pyFullMatch_none_right fcp h (by decide) (by decide)
  simp [lineEffects, deletedStage, renameStage, renameToStage, copyStage, copyToStage,
    h, h1, h2, h3, h4, h5, hf]

lemma execCmds_okExec (cs : List (List String)) : execCmds okExec cs = (cs, true) := by
  induction cs with
  | nil => rfl
  | cons c cs ih => simp [execCmds, okExec, ih]

lemma scanLines_step (exec : List String → Bool) (st st' : ScanState) (l : String)
    (ls out : List String) (cmds : List (List String))
    (hl : lineEffects st l = ⟨st', out, cmds, false⟩)
    (hc : execCmds exec cmds = (cmds, true)) :
    scanLines exec st (l :: ls) =
      ⟨out ++ (scanLines exec st' ls).out, cmds ++ (scanLines exec st' ls).invoked,
        (scanLines exec st' ls).ok⟩ := by
  simp [scanLines, hl, hc]

lemma scanLines_abort (exec : List String → Bool) (st st' : ScanState) (l : String)
    (ls out : List String) (cmds : List (List String))
    (hl : lineEffects st l = ⟨st', out, cmds, true⟩)
    (hc : execCmds exec cmds = (cmds, true)) :
    scanLines exec st (l :: ls) = ⟨out, cmds, false⟩ := by
  simp [scanLines, hl, hc]

lemma scanLines_skip (exec : List String → Bool) (st : ScanState) (pre ls : List String)
    (h : pre.all noMarker = true) :
    scanLines exec st (pre ++ ls) = scanLines exec st ls := by
  induction pre with
  | nil => rfl
  | cons a pre ih =>
    rw [List.all_cons, Bool.and_eq_true] at h
    obtain ⟨h1, h2, h3, h4, h5, h6⟩ := noMarker_elim h.1
    rw [List.cons_append,
      scanLines_step exec st st a (pre ++ ls) [] []
        (lineEffects_of_none st a h1 h2 h3 h4 h5 h6) rfl,
      ih h.2]
    simp

lemma scanLines_nil_of_noMarker (exec : List String → Bool) (st : ScanState)
    (pre : List String) (h : pre.all noMarker = true) :
    scanLines exec st pre = ⟨[], [], true⟩ := by
  have hs := scanLines_skip exec st pre [] h
  rw [List.append_nil] at hs
  rw [hs]
  rfl

/-- C1: the claim as stated is false on the code.  Starting from no pending
state, scanning a rename-from of a.txt, then a copy-from of b.txt, then a
rename-to of c.txt issues a forced rename whose source is b.txt, not a.txt:
processing the copy-from marker changed the pending rename source, because
both machines share the single local hg_from. -/
theorem C1_counterexample :
    scanLines okExec ⟨none, none⟩ ["rename from a.txt", "copy from b.txt", "rename to c.txt"]
        = ⟨[], [[hg_cmd, "mv", "-f", "b.txt", "c.txt"]], true⟩ ∧
    (scanLines okExec ⟨none, none⟩
        ["rename from a.txt", "copy from b.txt", "rename to c.txt"]).invoked
      ≠ [[hg_cmd, "mv", "-f", "a.txt", "c.txt"]] := by
  constructor
  · rfl
  · decide

/-- C1 amended: the scanner keeps one shared pending source, the local
hg_from, rather than two independent ones.  A rename-from or a copy-from
marker each overwrite it with the captured path, so a copy-from marker does
change the source a later rename-to will use, and conversely; every other
line, the rename-to and copy-to markers included, leaves it unchanged. -/
theorem C1_theorem (st : ScanState) (line : String) :
    ((pyFullMatch fp line = none ∧ pyFullMatch fcp line = none) →
      (lineEffects st line).state.hg_from = st.hg_from) ∧
    (∀ p, pyFullMatch fp line = some p → (lineEffects st line).state.hg_from = some p) ∧
    (∀ p, pyFullMatch fcp line = some p → (lineEffects st line).state.hg_from = some p) := by
  refine ⟨?_, ?_, ?_⟩
  · rintro ⟨hf, hfc⟩
    cases hI : pyFullMatch file_name_re line with
    | some p => rw [lineEffects_of_index st hI]
    | none =>
      cases hD : pyFullMatch deleted_re line with
      | some p =>
        cases hfn : st.file_name with
        | some f => rw [lineEffects_of_deleted_some st hD hfn]
        | none => rw [lineEffects_of_deleted_none st hD hfn]
      | none =>
        cases hT : pyFullMatch tp line with
        | some p =>
          cases hfr : st.hg_from with
          | some f =>
            rw [lineEffects_of_tp_some st hT hfr]
            exact hfr
          | none =>
            rw [lineEffects_of_tp_none st hT hfr]
            exact hfr
        | none =>
          cases hTC : pyFullMatch tcp line with
          | some p =>
            cases hfr : st.hg_from with
            | some f =>
              rw [lineEffects_of_tcp_some st hTC hfr]
              exact hfr
            | none =>
              rw [lineEffects_of_tcp_none st hTC hfr]
              exact hfr
          | none => rw [lineEffects_of_none st line hI hD hf hT hfc hTC]
  · intro p hp
    rw [lineEffects_of_fp st hp]
  · intro p hp
    rw [lineEffects_of_fcp st hp]

/-- C1 witness: a copy-from marker overwrites the shared pending source. -/
theorem C1_witness :
    (lineEffects ⟨none, none⟩ "copy from b.txt").state.hg_from = some "b.txt" :=
  (C1_theorem ⟨none, none⟩ "copy from b.txt").2.2 "b.txt" (by decide)

/-- C2: the claim as stated is false on the code.  Invoked with only the
force flag and no URL, inside a workspace, the process exits non-zero and
invokes no external command, but it prints nothing: the argument lookup
raises an uncaught IndexError before any usage message. -/
theorem C2_counterexample :
    runScript ["hg_import.py", "-f"] true [] okExec = ⟨false, [], []⟩ ∧
    usageMsg ∉ (runScript ["hg_import.py", "-f"] true [] okExec).output := by
  constructor
  · rfl
  · decide

/-- C2 amended: every invocation missing the URL exits non-zero and invokes
no external command, but the usage message is printed only when no argument
at all is supplied; with only the force flag the process dies on an uncaught
IndexError with empty standard output when inside a workspace, and with the
workspace error message when outside one. -/
theorem C2_theorem (prog : String) (body : List String) (exec : List String → Bool) :
    (∀ hasHg : Bool, runScript [prog] hasHg body exec = ⟨false, [usageMsg], []⟩) ∧
    runScript [prog, "-f"] true body exec = ⟨false, [], []⟩ ∧
    runScript [prog, "-f"] false body exec = ⟨false, [workspaceMsg], []⟩ := by
  refine ⟨fun hasHg => ?_, ?_, ?_⟩ <;>
    simp [runScript, applyImport, List.get?]

/-- C3: the claim as stated is false on the code.  A recognized copy-to
marker triggers two external command invocations, the copy and then the
no-backup revert, and a recognized rename-from marker, which is not an
Index marker, triggers none. -/
theorem C3_counterexample :
    (lineEffects ⟨none, some "a.txt"⟩ "copy to c.txt").cmds
        = [[hg_cmd, "cp", "a.txt", "c.txt"], [hg_cmd, "revert", "--no-backup", "a.txt"]] ∧
    (lineEffects ⟨none, some "a.txt"⟩ "copy to c.txt").cmds.length ≠ 1 ∧
    pyFullMatch fp "rename from a.txt" = some "a.txt" ∧
    (lineEffects ⟨none, none⟩ "rename from a.txt").cmds = [] := by
  refine ⟨rfl, by decide, by decide, rfl⟩

/-- C3 amended: on a pass that raises no NameError, a recognized deleted-file
or rename-to marker triggers exactly one external command invocation, a
recognized copy-to marker triggers exactly two, and every other line, the
Index, rename-from and copy-from markers included, triggers none. -/
theorem C3_theorem (st : ScanState) (line : String)
    (h : (lineEffects st line).nameErr = false) :
    (lineEffects st line).cmds.length =
      (if (pyFullMatch tcp line).isSome then 2
       else if (pyFullMatch deleted_re line).isSome || (pyFullMatch tp line).isSome then 1
       else 0) := by
  cases hTC : pyFullMatch tcp line with
  | some p =>
    cases hfr : st.hg_from with
    | none =>
      rw [lineEffects_of_tcp_none st hTC hfr] at h
      simp at h
    | some f =>
      rw [lineEffects_of_tcp_some st hTC hfr]
      simp
  | none =>
    cases hD : pyFullMatch deleted_re line with
    | some p =>
      have hT : pyFullMatch tp line = none :=
        pyFullMatch_none_right tp hD (by decide) (by decide)
      cases hfn : st.file_name with
      | none =>
        rw [lineEffects_of_deleted_none st hD hfn] at h
        simp at h
      | some f =>
        rw [lineEffects_of_deleted_some st hD hfn]
        simp [hT]
    | none =>
      cases hT : pyFullMatch tp line with
      | some p =>
        cases hfr : st.hg_from with
        | none =>
          rw [lineEffects_of_tp_none st hT hfr] at h
          simp at h
        | some f =>
          rw [lineEffects_of_tp_some st hT hfr]
          simp
      | none =>
        cases hF : pyFullMatch fp line with
        | some p =>
          rw [lineEffects_of_fp st hF]
          simp
        | none =>
          cases hFC : pyFullMatch fcp line with
          | some p =>
            rw [lineEffects_of_fcp st hFC]
            simp
          | none =>
            cases hI : pyFullMatch file_name_re line with
            | some p =>
              rw [lineEffects_of_index st hI]
              simp
            | none =>
              rw [lineEffects_of_none st line hI hD hF hT hFC hTC]
              simp

/-- C3 witness: a rename-to marker with a pending source triggers exactly
one invocation. -/
theorem C3_witness :
    (lineEffects ⟨none, some "a.txt"⟩ "rename to b.txt").cmds.length = 1 :=
  (C3_theorem ⟨none, some "a.txt"⟩ "rename to b.txt" (by decide)).trans (by decide)


lemma scanLines_nil (exec : List String → Bool) (st : ScanState) :
    scanLines exec st [] = ⟨[], [], true⟩ := rfl

/-- C4: the claim as stated is false on the code.  After the pair is
consumed, the pending source a.txt is not cleared, and a later lone
rename-to marker reuses it: the diff with a lone rename-to of c.txt after
the pair issues a second forced rename whose source is again a.txt. -/
theorem C4_counterexample :
    scanLines okExec ⟨none, none⟩
        ["rename from a.txt", "rename to b.txt", "rename to c.txt"]
      = ⟨[], [[hg_cmd, "mv", "-f", "a.txt", "b.txt"],
          [hg_cmd, "mv", "-f", "a.txt", "c.txt"]], true⟩ := by
  rfl

/-- C4 amended: for diff text whose other lines match no marker, the pair
rename-from a.txt, rename-to b.txt issues exactly one forced rename from
a.txt to b.txt; but the pending source is not cleared on consumption, so a
later lone rename-to marker of c.txt reuses a.txt as its source and issues
a further forced rename from a.txt to c.txt. -/
theorem C4_theorem (pre mid post : List String)
    (h : ((pre ++ mid) ++ post).all noMarker = true) :
    scanLines okExec ⟨none, none⟩
        (pre ++ ("rename from a.txt" :: (mid ++ ("rename to b.txt" :: post))))
      = ⟨[], [[hg_cmd, "mv", "-f", "a.txt", "b.txt"]], true⟩ ∧
    scanLines okExec ⟨none, none⟩
        (pre ++ ("rename from a.txt" :: (mid ++ ("rename to b.txt" ::
          (post ++ ["rename to c.txt"])))))
      = ⟨[], [[hg_cmd, "mv", "-f", "a.txt", "b.txt"],
          [hg_cmd, "mv", "-f", "a.txt", "c.txt"]], true⟩ := by
  simp only [List.all_append, Bool.and_eq_true] at h
  obtain ⟨⟨hpre, hmid⟩, hpost⟩ := h
  have hrf := lineEffects_of_fp (⟨none, none⟩ : ScanState)
    (show pyFullMatch fp "rename from a.txt" = some "a.txt" by decide)
  have hrtb := lineEffects_of_tp_some (⟨none, some "a.txt"⟩ : ScanState)
    (show pyFullMatch tp "rename to b.txt" = some "b.txt" by decide) rfl
  have hrtc := lineEffects_of_tp_some (⟨none, some "a.txt"⟩ : ScanState)
    (show pyFullMatch tp "rename to c.txt" = some "c.txt" by decide) rfl
  constructor
  · rw [scanLines_skip okExec _ pre _ hpre,
      scanLines_step okExec _ _ _ _ _ _ hrf rfl,
      scanLines_skip okExec _ mid _ hmid,
      scanLines_step okExec _ _ _ _ _ _ hrtb (execCmds_okExec _),
      scanLines_nil_of_noMarker okExec _ post hpost]
    decide
  · rw [scanLines_skip okExec _ pre _ hpre,
      scanLines_step okExec _ _ _ _ _ _ hrf rfl,
      scanLines_skip okExec _ mid _ hmid,
      scanLines_step okExec _ _ _ _ _ _ hrtb (execCmds_okExec _),
      scanLines_skip okExec _ post _ hpost,
      scanLines_step okExec _ _ _ _ _ _ hrtc (execCmds_okExec _),
      scanLines_nil]
    decide

/-- C4 witness: the amended claim at the empty surroundings. -/
theorem C4_witness :
    scanLines okExec ⟨none, none⟩
        ([] ++ ("rename from a.txt" :: ([] ++ ("rename to b.txt" :: []))))
      = ⟨[], [[hg_cmd, "mv", "-f", "a.txt", "b.txt"]], true⟩ ∧
    scanLines okExec ⟨none, none⟩
        ([] ++ ("rename from a.txt" :: ([] ++ ("rename to b.txt" ::
          ([] ++ ["rename to c.txt"])))))
      = ⟨[], [[hg_cmd, "mv", "-f", "a.txt", "b.txt"],
          [hg_cmd, "mv", "-f", "a.txt", "c.txt"]], true⟩ :=
  C4_theorem [] [] [] (by decide)

/-- C5: for diff text whose other lines match no marker, the pair copy-from
a.txt, copy-to c.txt issues exactly one copy from a.txt to c.txt followed by
exactly one no-backup revert of a.txt, in that order, and nothing else. -/
theorem C5_theorem (pre mid post : List String)
    (h : ((pre ++ mid) ++ post).all noMarker = true) :
    scanLines okExec ⟨none, none⟩
        (pre ++ ("copy from a.txt" :: (mid ++ ("copy to c.txt" :: post))))
      = ⟨[], [[hg_cmd, "cp", "a.txt", "c.txt"],
          [hg_cmd, "revert", "--no-backup", "a.txt"]], true⟩ := by
  simp only [List.all_append, Bool.and_eq_true] at h
  obtain ⟨⟨hpre, hmid⟩, hpost⟩ := h
  have hcf := lineEffects_of_fcp (⟨none, none⟩ : ScanState)
    (show pyFullMatch fcp "copy from a.txt" = some "a.txt" by decide)
  have hct := lineEffects_of_tcp_some (⟨none, some "a.txt"⟩ : ScanState)
    (show pyFullMatch tcp "copy to c.txt" = some "c.txt" by decide) rfl
  rw [scanLines_skip okExec _ pre _ hpre,
    scanLines_step okExec _ _ _ _ _ _ hcf rfl,
    scanLines_skip okExec _ mid _ hmid,
    scanLines_step okExec _ _ _ _ _ _ hct (execCmds_okExec _),
    scanLines_nil_of_noMarker okExec _ post hpost]
  decide

/-- C5 witness: the claim at small concrete surroundings. -/
theorem C5_witness :
    scanLines okExec ⟨none, none⟩
        (["x"] ++ ("copy from a.txt" :: ([] ++ ("copy to c.txt" :: ["y y"]))))
      = ⟨[], [[hg_cmd, "cp", "a.txt", "c.txt"],
          [hg_cmd, "revert", "--no-backup", "a.txt"]], true⟩ :=
  C5_theorem ["x"] [] ["y y"] (by decide)

/-- C6: for diff text whose other lines match no marker, an Index line
announcing foo.txt followed later by a deleted-file line issues exactly one
forced removal of foo.txt; and the removal targets the most recently
announced path when several Index lines precede it. -/
theorem C6_theorem (pre mid post : List String)
    (h : ((pre ++ mid) ++ post).all noMarker = true) :
    scanLines okExec ⟨none, none⟩
        (pre ++ ("Index: foo.txt" :: (mid ++ ("deleted file mode 100644" :: post))))
      = ⟨["___ foo.txt"], [[hg_cmd, "rm", "-f", "foo.txt"]], true⟩ ∧
    scanLines okExec ⟨none, none⟩
        ["Index: bar.txt", "Index: foo.txt", "deleted file mode 100644"]
      = ⟨["___ bar.txt", "___ foo.txt"], [[hg_cmd, "rm", "-f", "foo.txt"]], true⟩ := by
  simp only [List.all_append, Bool.and_eq_true] at h
  obtain ⟨⟨hpre, hmid⟩, hpost⟩ := h
  have hix := lineEffects_of_index (⟨none, none⟩ : ScanState)
    (show pyFullMatch file_name_re "Index: foo.txt" = some "foo.txt" by decide)
  have hdel := lineEffects_of_deleted_some (⟨some "foo.txt", none⟩ : ScanState)
    (show pyFullMatch deleted_re "deleted file mode 100644" = some "100644" by decide) rfl
  constructor
  · rw [scanLines_skip okExec _ pre _ hpre,
      scanLines_step okExec _ _ _ _ _ _ hix rfl,
      scanLines_skip okExec _ mid _ hmid,
      scanLines_step okExec _ _ _ _ _ _ hdel (execCmds_okExec _),
      scanLines_nil_of_noMarker okExec _ post hpost]
    decide
  · rfl

/-- C6 witness: the claim at empty surroundings. -/
theorem C6_witness :
    scanLines okExec ⟨none, none⟩
        ([] ++ ("Index: foo.txt" :: ([] ++ ("deleted file mode 100644" :: []))))
      = ⟨["___ foo.txt"], [[hg_cmd, "rm", "-f", "foo.txt"]], true⟩ ∧
    scanLines okExec ⟨none, none⟩
        ["Index: bar.txt", "Index: foo.txt", "deleted file mode 100644"]
      = ⟨["___ bar.txt", "___ foo.txt"], [[hg_cmd, "rm", "-f", "foo.txt"]], true⟩ :=
  C6_theorem [] [] [] (by decide)

/-- C7: when the initial import invocation fails, the process exits
non-zero at once, prints nothing, performs no scan, and invokes no further
external command: the import command is the only invocation. -/
theorem C7_theorem (prog url : String) (body : List String) (exec : List String → Bool)
    (h1 : url ≠ "-f") (h2 : exec (mkImportCmd [] url) = false) :
    runScript [prog, url] true body exec = ⟨false, [], [mkImportCmd [] url]⟩ := by
  have hg1 : ([prog, url] : List String).get? 1 = some url := rfl
  simp [runScript, applyImport, hg1, h1, h2]

/-- C7 witness: a failing oracle at a concrete invocation. -/
theorem C7_witness :
    runScript ["hg_import.py", "u"] true [] (fun _ => false)
      = ⟨false, [], [mkImportCmd [] "u"]⟩ :=
  C7_theorem "hg_import.py" "u" [] (fun _ => false) (by decide) rfl

/-- C8: whenever the workspace marker subdirectory is absent and at least
one argument is supplied, the process prints the workspace error message,
exits non-zero, and invokes no external command, whatever the URL. -/
theorem C8_theorem (argv : List String) (body : List String) (exec : List String → Bool)
    (h : 2 ≤ argv.length) :
    runScript argv false body exec = ⟨false, [workspaceMsg], []⟩ := by
  have hne : argv.length ≠ 1 := by omega
  simp [runScript, hne]

/-- C8 witness: the claim at a concrete argument vector. -/
theorem C8_witness :
    runScript ["hg_import.py", "u"] false [] okExec = ⟨false, [workspaceMsg], []⟩ :=
  C8_theorem ["hg_import.py", "u"] [] okExec (by decide)

/-- C9: a deleted-file marker reached before any Index line has bound
file_name aborts the scan through an uncaught NameError: no external
command is invoked, nothing is printed, the process exits non-zero, and
the rest of the lines are never scanned. -/
theorem C9_theorem (exec : List String → Bool) (pre rest : List String)
    (h : pre.all noMarker = true) :
    scanLines exec ⟨none, none⟩ (pre ++ ("deleted file mode 100644" :: rest))
      = ⟨[], [], false⟩ := by
  rw [scanLines_skip exec _ pre _ h,
    scanLines_abort exec _ _ _ _ _ _
      (lineEffects_of_deleted_none (⟨none, none⟩ : ScanState)
        (show pyFullMatch deleted_re "deleted file mode 100644" = some "100644" by decide)
        rfl) rfl]

/-- C9 witness: the deleted-file marker as the very first line. -/
theorem C9_witness :
    scanLines okExec ⟨none, none⟩ ([] ++ ("deleted file mode 100644" :: []))
      = ⟨[], [], false⟩ :=
  C9_theorem okExec [] [] rfl

/-- C10: a source pattern matches a line exactly when the whole line, up to
one trailing newline, is the fixed head followed by a single nonempty run of
non-space characters, that run being the captured path; and a line matched
by none of the six patterns changes no state, prints nothing, invokes no
external command and raises no error. -/
theorem C10_theorem :
    (∀ (q line p : String), pyFullMatch q line = some p ↔
        (stripNL line.data = q.data ++ p.data ∧ p.data ≠ [] ∧
          p.data.all (fun c => !isPySpace c) = true)) ∧
    (∀ (st : ScanState) (line : String), noMarker line = true →
      lineEffects st line = ⟨st, [], [], false⟩) := by
  constructor
  · exact pyFullMatch_eq_some_iff
  · intro st line h
    obtain ⟨h1, h2, h3, h4, h5, h6⟩ := noMarker_elim h
    exact lineEffects_of_none st line h1 h2 h3 h4 h5 h6

/-- C10 witness: a line whose path carries whitespace, hence extra text
after the path, is recognized by no pattern and has no effect. -/
theorem C10_witness :
    lineEffects ⟨none, none⟩ "rename from a b.txt" = ⟨⟨none, none⟩, [], [], false⟩ :=
  C10_theorem.2 ⟨none, none⟩ "rename from a b.txt" (by decide)
